import Mathlib

/-!
Shallow embedding of src/sync/sync-worker.py (Yield-Rewind sync worker).

Dates are modelled as (year, month, day) triples; the source passes them
around as zero-padded ISO strings, whose lexicographic order coincides with
the field-lexicographic order used here.  The SQLite connection is modelled
as a pair of database snapshots (current in-transaction view, committed
durable view); `commit` copies current over committed, mirroring
`conn.commit()`.  Nullable SQL/Python values are `Option`; Python `x or 0`
truthiness coercion is `pyOrZero`.  A raw fetched row whose dynamic field
extraction raises is `Except.error`; exceptions become explicit error
propagation stopped exactly where the source's try/except blocks stop them.
-/

set_option maxHeartbeats 1000000

namespace YieldRewind

/-- Calendar date; models the `YYYY-MM-DD` strings the worker passes around. -/
structure Date where
  year : Nat
  month : Nat
  day : Nat
deriving DecidableEq, Repr

/-- Gregorian leap-year test (as in Python's calendar. used by date arithmetic). -/
def isLeap (y : Nat) : Bool :=
  (y % 4 == 0 && y % 100 != 0) || y % 400 == 0

def daysInMonth (y m : Nat) : Nat :=
  if m = 2 then (if isLeap y then 29 else 28)
  else if m = 4 ∨ m = 6 ∨ m = 9 ∨ m = 11 then 30
  else 31

/-- One day later: models `date + timedelta(days=1)`. -/
def Date.next (d : Date) : Date :=
  if d.day < daysInMonth d.year d.month then ⟨d.year, d.month, d.day + 1⟩
  else if d.month < 12 then ⟨d.year, d.month + 1, 1⟩
  else ⟨d.year + 1, 1, 1⟩

/-- One day earlier: models `date - timedelta(days=1)` (used by get_yesterday). -/
def Date.prev (d : Date) : Date :=
  if 1 < d.day then ⟨d.year, d.month, d.day - 1⟩
  else if 1 < d.month then ⟨d.year, d.month - 1, daysInMonth d.year (d.month - 1)⟩
  else ⟨d.year - 1, 12, 31⟩

/-- Strict order on dates; agrees with Python's `<` on the zero-padded ISO
strings compared in main (`start_date > end_date`). -/
def Date.lt (a b : Date) : Bool :=
  decide (a.year < b.year) ||
    (decide (a.year = b.year) &&
      (decide (a.month < b.month) ||
        (decide (a.month = b.month) && decide (a.day < b.day))))

/-- Non-strict order on dates (the `current <= end` loop condition). -/
def Date.le (a b : Date) : Bool :=
  decide (a.year < b.year) ||
    (decide (a.year = b.year) &&
      (decide (a.month < b.month) ||
        (decide (a.month = b.month) && decide (a.day ≤ b.day))))

/-- get_yesterday (sync-worker.py:66-68), relative to an explicit "today". -/
def get_yesterday (today : Date) : Date := today.prev

/-- The sequence of days visited by the `while current <= end` loop.
The fuel argument only bounds the recursion; it is chosen in `dateRange`
large enough for any range between the two years involved. -/
def dateRangeAux : Nat → Date → Date → List Date
  | 0, _, _ => []
  | fuel + 1, c, e => if Date.le c e then c :: dateRangeAux fuel c.next e else []

def dateRange (s e : Date) : List Date :=
  dateRangeAux (366 * (e.year + 2 - s.year)) s e

/-- Python `x or 0` on a nullable numeric value: `None` (and 0 itself) give 0. -/
def pyOrZero : Option Int → Int
  | none => 0
  | some v => v

/-- Python `x or 1` on the nullable sync_count value: `None` and 0 give 1. -/
def pyOrOne : Option Nat → Nat
  | none => 1
  | some 0 => 1
  | some n => n

/-- compute_source_hash (sync-worker.py:80-83).  The source builds the string
`f"{oi or 0}|{rec or 0}|{ship or 0}|{blend or 0}|{ci or 0}"` and applies
md5 truncated to 16 hex characters.  The digest is a fixed deterministic
function applied after the coercion, so the model keeps the pre-digest value
string: equal measure tuples still yield equal fingerprints, which is the
only property of the digest the worker relies on. -/
def compute_source_hash (oi rcpt ship blend ci : Option Int) : String :=
  toString (pyOrZero oi) ++ "|" ++ toString (pyOrZero rcpt) ++ "|" ++
    toString (pyOrZero ship) ++ "|" ++ toString (pyOrZero blend) ++ "|" ++
    toString (pyOrZero ci)

/-- Derived yield quantity (sync-worker.py:234):
`(blend or 0) + (ci or 0) - (oi or 0) - (rec or 0) + (ship or 0)`. -/
def calc_yield_qty (oi rcpt ship blend ci : Option Int) : Int :=
  pyOrZero blend + pyOrZero ci - pyOrZero oi - pyOrZero rcpt + pyOrZero ship

/-- One fetched yield row after field extraction (sync-worker.py:223-231):
`product_class` comes from `row[1].strip() if row[1] else None`, the name is
stripped, and the five measures are nullable.  `rcpt` is the source's `rec`
variable (receipts). -/
structure YieldRow where
  product_class : Option String
  product_name : String
  oi : Option Int
  rcpt : Option Int
  ship : Option Int
  blend : Option Int
  ci : Option Int
deriving DecidableEq, Repr

/-- A row of the yield_data table, with the audit columns. -/
structure YieldRecord where
  id : Nat
  date : Date
  product_name : String
  product_class : Option String
  oi_qty : Option Int
  rec_qty : Option Int
  ship_qty : Option Int
  blend_qty : Option Int
  ci_qty : Option Int
  yield_qty : Int
  source_hash : String
  sync_count : Option Nat
  first_synced_at : Option String
  last_modified_at : Option String
  last_sync_id : Option Nat
deriving DecidableEq, Repr

/-- A row of the yield_data_history table (capture_yield_history's INSERT). -/
structure HistoryEntry where
  original_id : Nat
  date : Date
  product_name : String
  product_class : Option String
  oi_qty : Option Int
  rec_qty : Option Int
  ship_qty : Option Int
  blend_qty : Option Int
  ci_qty : Option Int
  yield_qty : Int
  sync_id : Nat
  change_type : String
  previous_yield_qty : Int
deriving DecidableEq, Repr

/-- A row of the sync_log table. -/
structure SyncLogEntry where
  id : Nat
  data_type : String
  sync_mode : String
  sync_reason : String
  date_range_start : Date
  date_range_end : Date
  started_at : String
  completed_at : Option String
  status : String
  records_fetched : Option Nat
  records_inserted : Option Nat
  records_updated : Option Nat
  records_unchanged : Option Nat
  error_message : Option String
deriving DecidableEq, Repr

/-- A row of the sync_status table (the per-dataset watermark). -/
structure SyncStatusRow where
  data_type : String
  last_synced_date : Option Date
  last_sync_at : String
  records_synced : Nat
  sync_duration_ms : Nat
  status : String
  error_message : Option String
deriving DecidableEq, Repr

/-- The SQLite database contents relevant to the worker, plus the rowid
counters SQLite maintains for the two tables the worker inserts into by id. -/
structure DB where
  yield_data : List YieldRecord
  yield_history : List HistoryEntry
  sync_log : List SyncLogEntry
  sync_status : List SyncStatusRow
  next_yield_id : Nat
  next_sync_id : Nat
deriving DecidableEq, Repr

def DB.empty : DB := ⟨[], [], [], [], 1, 1⟩

/-- An open SQLite connection: the in-transaction view queries see, and the
durable view; `conn.commit()` copies current over committed. -/
structure SqliteState where
  current : DB
  committed : DB
deriving DecidableEq, Repr

def commit (st : SqliteState) : SqliteState := { st with committed := st.current }

def openConn (db : DB) : SqliteState := ⟨db, db⟩

/-- The sync statistics dict of sync_yield_data; `prev_changes` is the extra
key the day loop stores for its per-day change report. -/
structure Stats where
  fetched : Nat
  inserted : Nat
  updated : Nat
  unchanged : Nat
  prev_changes : Nat
deriving DecidableEq, Repr

def Stats.start : Stats := ⟨0, 0, 0, 0, 0⟩

/-- The `SELECT ... FROM yield_data WHERE date = ? AND product_name = ?`
lookup followed by fetchone (first matching row). -/
def findRecord (l : List YieldRecord) (d : Date) (name : String) : Option YieldRecord :=
  l.find? (fun x => decide (x.date = d ∧ x.product_name = name))

/-- capture_yield_history (sync-worker.py:119-142): snapshot the existing
record into yield_data_history and commit immediately (the source function
calls `conn.commit()` on the shared connection). -/
def capture_yield_history (st : SqliteState) (ex : YieldRecord) (sync_id : Nat)
    (change_type : String) : SqliteState :=
  let cur := st.current
  let entry : HistoryEntry :=
    ⟨ex.id, ex.date, ex.product_name, ex.product_class, ex.oi_qty, ex.rec_qty,
      ex.ship_qty, ex.blend_qty, ex.ci_qty, ex.yield_qty, sync_id, change_type,
      ex.yield_qty⟩
  commit { st with current := { cur with yield_history := cur.yield_history ++ [entry] } }

/-- Fingerprint of a fetched row (the `source_hash` local of the day loop). -/
def rowHash (r : YieldRow) : String :=
  compute_source_hash r.oi r.rcpt r.ship r.blend r.ci

/-- Derived yield quantity of a fetched row (the `yield_qty` local). -/
def rowYield (r : YieldRow) : Int :=
  calc_yield_qty r.oi r.rcpt r.ship r.blend r.ci

/-- The UPDATE yield_data SET ... WHERE id = ? statement applied to a stored
row (sync-worker.py:265-274): overwrites class, measures, derived and audit
columns; date, product_name and first_synced_at are not in the SET list.
`sc` is the sync_count the loop computed from the previously fetched copy. -/
def updatedRecord (sync_id : Nat) (now : String) (r : YieldRow) (sc : Nat)
    (x : YieldRecord) : YieldRecord :=
  { x with
    product_class := r.product_class
    oi_qty := r.oi
    rec_qty := r.rcpt
    ship_qty := r.ship
    blend_qty := r.blend
    ci_qty := r.ci
    yield_qty := rowYield r
    last_sync_id := some sync_id
    last_modified_at := some now
    sync_count := some sc
    source_hash := rowHash r }

/-- The INSERT INTO yield_data statement (sync-worker.py:276-286):
sync_count = 1 and first_synced_at = now on first insert. -/
def newRecord (sync_id : Nat) (d : Date) (now : String) (r : YieldRow)
    (rid : Nat) : YieldRecord :=
  ⟨rid, d, r.product_name, r.product_class, r.oi, r.rcpt, r.ship, r.blend,
    r.ci, rowYield r, rowHash r, some 1, some now, some now, some sync_id⟩

/-- Per-row body of the day loop of sync_yield_data (sync-worker.py:223-286):
classify the fetched row against the stored record (insert / update-with-
history / unchanged) and apply the corresponding writes on the connection
(left uncommitted, except that the history capture commits). -/
def processRow (sync_id : Nat) (d : Date) (now sync_mode : String)
    (st : SqliteState) (stats : Stats) (r : YieldRow) : SqliteState × Stats :=
  match findRecord st.current.yield_data d r.product_name with
  | some ex =>
    if ex.source_hash = rowHash r then
      (st, { stats with unchanged := stats.unchanged + 1 })
    else
      let change_type := if sync_mode = "prior_month_refresh" then "prior_month_refresh" else "update"
      let st1 := capture_yield_history st ex sync_id change_type
      let sc := pyOrOne ex.sync_count + 1
      let cur := st1.current
      let st2 := { st1 with current :=
        { cur with yield_data := cur.yield_data.map (fun x =>
            if x.id = ex.id then updatedRecord sync_id now r sc x else x) } }
      (st2, { stats with updated := stats.updated + 1 })
  | none =>
    let cur := st.current
    ({ st with current := { cur with
        yield_data := cur.yield_data ++ [newRecord sync_id d now r cur.next_yield_id]
        next_yield_id := cur.next_yield_id + 1 } },
      { stats with inserted := stats.inserted + 1 })

/-- A raw fetched row: `Except.ok` carries the extracted fields, `Except.error`
models a row whose dynamic field access or write raises (the exception is
caught by the per-day handler). -/
abbrev RawRow := Except String YieldRow

/-- The `for row in rows` loop: rows are processed left to right; the first
raising row aborts the loop carrying the exception, leaving the earlier rows'
writes on the connection (no rollback in the source). -/
def processRows (sync_id : Nat) (d : Date) (now sync_mode : String) :
    SqliteState → Stats → List RawRow → SqliteState × Stats × Option String
  | st, stats, [] => (st, stats, none)
  | st, stats, Except.error e :: _ => (st, stats, some e)
  | st, stats, Except.ok r :: rest =>
    let x := processRow sync_id d now sync_mode st stats r
    processRows sync_id d now sync_mode x.1 x.2 rest

/-- One iteration of the `while current <= end` day loop (sync-worker.py:
214-296) including its try/except: a fetch failure leaves state and stats
untouched; a mid-row failure keeps the partial writes and skips the day-end
commit; a clean day commits and refreshes the prev_changes bookkeeping. -/
def processDay (fetch : Date → Except String (List RawRow)) (sync_id : Nat)
    (now sync_mode : String) (x : SqliteState × Stats) (d : Date) :
    SqliteState × Stats :=
  match fetch d with
  | Except.error _ => x
  | Except.ok rows =>
    let stats0 := { x.2 with fetched := x.2.fetched + rows.length }
    match processRows sync_id d now sync_mode x.1 stats0 rows with
    | (st', stats', none) =>
      (commit st', { stats' with prev_changes := stats'.inserted + stats'.updated })
    | (st', stats', some _) => (st', stats')

/-- The whole day loop over a list of days. -/
def syncDays (fetch : Date → Except String (List RawRow)) (sync_id : Nat)
    (now sync_mode : String) (x : SqliteState × Stats) (ds : List Date) :
    SqliteState × Stats :=
  ds.foldl (processDay fetch sync_id now sync_mode) x

/-- create_sync_log_entry (sync-worker.py:86-96): insert a running entry,
commit, return its rowid. -/
def create_sync_log_entry (st : SqliteState) (data_type sync_mode sync_reason : String)
    (s e : Date) (now : String) : SqliteState × Nat :=
  let cur := st.current
  let id := cur.next_sync_id
  let entry : SyncLogEntry :=
    ⟨id, data_type, sync_mode, sync_reason, s, e, now, none, "running",
      none, none, none, none, none⟩
  (commit { st with current := { cur with
      sync_log := cur.sync_log ++ [entry]
      next_sync_id := id + 1 } }, id)

/-- update_sync_log_completion (sync-worker.py:99-116): finalize the entry and
commit. -/
def update_sync_log_completion (st : SqliteState) (sync_id : Nat) (status : String)
    (f i u n : Nat) (err : Option String) (now : String) : SqliteState :=
  let cur := st.current
  commit { st with current := { cur with sync_log := cur.sync_log.map (fun en =>
    if en.id = sync_id then
      { en with
        completed_at := some now
        status := status
        records_fetched := some f
        records_inserted := some i
        records_updated := some u
        records_unchanged := some n
        error_message := err }
    else en) } }

/-- sync_yield_data (sync-worker.py:180-313): open the connection, create the
sync_log entry, run the day loop over the range, finalize the entry with
status success (the per-day handler keeps day errors from escaping the loop),
close.  The remote source is the `fetch` parameter; a run that cannot connect
at all raises before this body and is handled by main. -/
def sync_yield_data (fetch : Date → Except String (List RawRow)) (db : DB)
    (start_d end_d : Date) (sync_mode sync_reason now : String) : DB × Stats :=
  let st0 := openConn db
  let x1 := create_sync_log_entry st0 "yield" sync_mode sync_reason start_d end_d now
  let x2 := syncDays fetch x1.2 now sync_mode (x1.1, Stats.start) (dateRange start_d end_d)
  let st3 := update_sync_log_completion x2.1 x1.2 "success" x2.2.fetched
    x2.2.inserted x2.2.updated x2.2.unchanged none now
  (st3.committed, x2.2)

/-- update_sync_status (sync-worker.py:461-488): upsert the per-dataset
sync_status row on its own connection.  Note the source sets
`last_synced_date` to `get_yesterday()` unconditionally, for success and
error alike; wall-clock duration is not modelled (passed through). -/
def update_sync_status (db : DB) (today : Date) (data_type status : String)
    (records duration_ms : Nat) (now : String) (err : Option String) : DB :=
  let row : SyncStatusRow :=
    ⟨data_type, some (get_yesterday today), now, records, duration_ms, status, err⟩
  if db.sync_status.any (fun x => decide (x.data_type = data_type)) then
    { db with sync_status := db.sync_status.map (fun x =>
        if x.data_type = data_type then row else x) }
  else
    { db with sync_status := db.sync_status ++ [row] }

/-- get_date_range (sync-worker.py:145-177).  The watermark argument is the
result of the sync_status lookup: `none` = no row, `some none` = row whose
last_synced_date is null/empty (falsy), `some (some d)` = row with date d. -/
def get_date_range (mode : String) (wm : Option (Option Date)) (today : Date) :
    Date × Date :=
  let end_d := get_yesterday today
  let start_d :=
    if mode = "incremental" then
      match wm with
      | some (some last) => last.next
      | _ => (⟨2025, 1, 1⟩ : Date)
    else (⟨2025, 1, 1⟩ : Date)
  (start_d, end_d)

/-- The sync_status read feeding get_date_range. -/
def lookupWatermark (db : DB) (data_type : String) : Option (Option Date) :=
  (db.sync_status.find? (fun x => decide (x.data_type = data_type))).map
    (fun x => x.last_synced_date)

/-- get_prior_month_range (sync-worker.py:71-77). -/
def get_prior_month_range (today : Date) : Date × Date :=
  let last_of_prior := Date.prev ⟨today.year, today.month, 1⟩
  (⟨last_of_prior.year, last_of_prior.month, 1⟩, last_of_prior)

/-- The per-dataset range selection in main (sync-worker.py:524-531):
explicit override wins, then prior-month mode, then get_date_range. -/
def plannedRange (mode : String) (ov : Option (Date × Date)) (db : DB)
    (data_type : String) (today : Date) : Date × Date :=
  match ov with
  | some se => se
  | none =>
    if mode = "prior_month_refresh" then get_prior_month_range today
    else get_date_range mode (lookupWatermark db data_type) today

/-- The dataset loop of main (sync-worker.py:516-560).  `attempt` abstracts
the per-dataset sync call (sync_yield_data / sync_sales_data / sync_tank_data
applied to the remote connection): it returns the updated database and either
the record count or the fatal exception message.  The Bool result is true
when the loop was terminated by `sys.exit(1)`. -/
def mainLoop (attempt : String → Date → Date → DB → DB × Except String Nat)
    (mode : String) (ov : Option (Date × Date)) (today : Date) (now : String) :
    List String → DB → DB × Bool
  | [], db => (db, false)
  | dt :: rest, db =>
    let se := plannedRange mode ov db dt today
    if Date.lt se.2 se.1 then
      mainLoop attempt mode ov today now rest db
    else
      match attempt dt se.1 se.2 db with
      | (db', Except.ok records) =>
        mainLoop attempt mode ov today now rest
          (update_sync_status db' today dt "success" records 0 now none)
      | (db', Except.error msg) =>
        (update_sync_status db' today dt "error" 0 0 now (some msg), true)

/-- The yield branch of main's dispatch, packaged as an `attempt` for
mainLoop: in the model the modelled body of sync_yield_data always completes
(per-day errors are swallowed inside it), so the result is always ok. -/
def yieldAttempt (fetch : Date → Except String (List RawRow))
    (sync_mode sync_reason now : String) :
    String → Date → Date → DB → DB × Except String Nat :=
  fun _ s e db =>
    let x := sync_yield_data fetch db s e sync_mode sync_reason now
    (x.1, Except.ok x.2.fetched)

/-- Well-formedness of the yield table's rowids: pairwise distinct and below
the next-rowid counter (maintained by SQLite, relied on by the UPDATE-by-id). -/
def idsOk (db : DB) : Prop :=
  (db.yield_data.map (fun x => x.id)).Nodup ∧
    ∀ x ∈ db.yield_data, x.id < db.next_yield_id

/-! ### Concrete scenario inputs used to exercise the model -/

/-- A sample day used by the concrete scenarios. -/
def d0 : Date := ⟨2025, 3, 11⟩

/-- A fetched row matching the worked example of the spec:
oi=10, rec=5, ship=20, blend=3, ci=2. -/
def exRow : YieldRow := ⟨some "P", "ALKY", some 10, some 5, some 20, some 3, some 2⟩

/-- A stored record for (2025-03-11, ALKY) with measures 1,2,3,4,5 and a
fingerprint consistent with its own measures. -/
def exRec : YieldRecord :=
  ⟨1, d0, "ALKY", some "P", some 1, some 2, some 3, some 4, some 5, 9,
    compute_source_hash (some 1) (some 2) (some 3) (some 4) (some 5),
    some 1, some "t0", some "t0", some 0⟩

/-- A database holding just exRec. -/
def exDb : DB := { DB.empty with yield_data := [exRec], next_yield_id := 2 }

/-- A fetched row for the same key as exRec but with a changed ci measure
(classified UPDATE). -/
def chRow : YieldRow := ⟨some "P", "ALKY", some 1, some 2, some 3, some 4, some 50⟩

/-- A fetched row under a key not present in exDb (classified INSERT). -/
def nwRow : YieldRow := ⟨some "P", "NEWPROD", none, none, none, none, none⟩

/-- A fetched row for the same key as exRec with identical measures but a
different product_class. -/
def clRow : YieldRow := ⟨some "F", "ALKY", some 1, some 2, some 3, some 4, some 5⟩

/-- A remote source that raises for the whole day 2025-03-12 and returns no
rows otherwise. -/
def dayFailFetch : Date → Except String (List RawRow) :=
  fun d => if d = ⟨2025, 3, 12⟩ then Except.error "timeout" else Except.ok []

/-- A remote source whose 2025-03-11 batch contains a changed row followed by
a row whose processing raises. -/
def midFailFetch : Date → Except String (List RawRow) :=
  fun d => if d = d0 then Except.ok [Except.ok chRow, Except.error "row error"]
    else Except.ok []

/-- A watermark table holding (yield, 2025-03-10). -/
def wmDb : DB :=
  { DB.empty with sync_status := [⟨"yield", some ⟨2025, 3, 10⟩, "t0", 7, 5, "success", none⟩] }

/-- A watermark table holding (yield, 2025-03-01). -/
def wmDbEarly : DB :=
  { DB.empty with sync_status := [⟨"yield", some ⟨2025, 3, 1⟩, "t0", 100, 5, "success", none⟩] }

/-- A watermark table holding (yield, 2025-03-14), making the incremental
plan for today = 2025-03-15 degenerate (start 2025-03-15 > end 2025-03-14). -/
def wmDbCaughtUp : DB :=
  { DB.empty with sync_status := [⟨"yield", some ⟨2025, 3, 14⟩, "t0", 7, 5, "success", none⟩] }

/-- A per-dataset sync call that fails fatally at once (models a remote
connection failure raised by pyodbc.connect). -/
def connFailAttempt : String → Date → Date → DB → DB × Except String Nat :=
  fun _ _ _ db => (db, Except.error "cannot connect")

/-! ### Auxiliary lemmas about the embedding -/

theorem updatedRecord_date (sync_id : Nat) (now : String) (r : YieldRow)
    (sc : Nat) (x : YieldRecord) : (updatedRecord sync_id now r sc x).date = x.date := rfl

theorem updatedRecord_name (sync_id : Nat) (now : String) (r : YieldRow)
    (sc : Nat) (x : YieldRecord) :
    (updatedRecord sync_id now r sc x).product_name = x.product_name := rfl

theorem updatedRecord_id (sync_id : Nat) (now : String) (r : YieldRow)
    (sc : Nat) (x : YieldRecord) : (updatedRecord sync_id now r sc x).id = x.id := rfl

theorem findRecord_append_some {l : List YieldRecord} {d : Date} {name : String}
    {x : YieldRecord} (h : findRecord l d name = some x) (l2 : List YieldRecord) :
    findRecord (l ++ l2) d name = some x := by
  unfold findRecord at *
  rw [List.find?_append, h]
  rfl

theorem findRecord_append_one_self {l : List YieldRecord} {d : Date} {name : String}
    {x : YieldRecord} (h : findRecord l d name = none) (hd : x.date = d)
    (hn : x.product_name = name) : findRecord (l ++ [x]) d name = some x := by
  unfold findRecord at *
  rw [List.find?_append, h]
  simp [hd, hn]

theorem findRecord_append_one_other {l : List YieldRecord} {d : Date} {name : String}
    {x : YieldRecord} (hn : x.product_name ≠ name) :
    findRecord (l ++ [x]) d name = findRecord l d name := by
  unfold findRecord
  rw [List.find?_append]
  have : [x].find? (fun y => decide (y.date = d ∧ y.product_name = name)) = none := by
    simp [hn]
  rw [this, Option.or_none]

theorem findRecord_map {l : List YieldRecord} {d : Date} {name : String}
    (f : YieldRecord → YieldRecord)
    (hf : ∀ x, (f x).date = x.date ∧ (f x).product_name = x.product_name) :
    findRecord (l.map f) d name = (findRecord l d name).map f := by
  unfold findRecord
  rw [List.find?_map]
  have hp : ((fun x : YieldRecord => decide (x.date = d ∧ x.product_name = name)) ∘ f)
      = (fun x : YieldRecord => decide (x.date = d ∧ x.product_name = name)) := by
    funext x
    simp [Function.comp, (hf x).1, (hf x).2]
  rw [hp]

theorem processRow_unchanged (sync_id : Nat) (d : Date) (now sync_mode : String)
    {st : SqliteState} {stats : Stats} {r : YieldRow} {ex : YieldRecord}
    (hfind : findRecord st.current.yield_data d r.product_name = some ex)
    (hh : ex.source_hash = rowHash r) :
    processRow sync_id d now sync_mode st stats r
      = (st, { stats with unchanged := stats.unchanged + 1 }) := by
  unfold processRow
  rw [hfind]
  simp [hh]

theorem processRow_update (sync_id : Nat) (d : Date) (now sync_mode : String)
    {st : SqliteState} {stats : Stats} {r : YieldRow} {ex : YieldRecord}
    (hfind : findRecord st.current.yield_data d r.product_name = some ex)
    (hh : ¬ ex.source_hash = rowHash r) :
    processRow sync_id d now sync_mode st stats r
      = (let st1 := capture_yield_history st ex sync_id
            (if sync_mode = "prior_month_refresh" then "prior_month_refresh" else "update")
         ({ st1 with current :=
            { st1.current with yield_data := st1.current.yield_data.map (fun x =>
                if x.id = ex.id then updatedRecord sync_id now r (pyOrOne ex.sync_count + 1) x
                else x) } },
          { stats with updated := stats.updated + 1 })) := by
  unfold processRow
  rw [hfind]
  simp [hh]

theorem processRow_insert (sync_id : Nat) (d : Date) (now sync_mode : String)
    {st : SqliteState} {stats : Stats} {r : YieldRow}
    (hfind : findRecord st.current.yield_data d r.product_name = none) :
    processRow sync_id d now sync_mode st stats r
      = ({ st with current := { st.current with
            yield_data := st.current.yield_data ++ [newRecord sync_id d now r st.current.next_yield_id]
            next_yield_id := st.current.next_yield_id + 1 } },
          { stats with inserted := stats.inserted + 1 }) := by
  unfold processRow
  rw [hfind]

theorem capture_current_yield_data (st : SqliteState) (ex : YieldRecord)
    (sync_id : Nat) (ct : String) :
    (capture_yield_history st ex sync_id ct).current.yield_data
      = st.current.yield_data := rfl

theorem updKeyFields (sync_id : Nat) (now : String) (r : YieldRow) (sc : Nat)
    (rid : Nat) : ∀ x : YieldRecord,
    ((if x.id = rid then updatedRecord sync_id now r sc x else x).date = x.date
      ∧ (if x.id = rid then updatedRecord sync_id now r sc x else x).product_name
          = x.product_name) := by
  intro x
  by_cases h : x.id = rid <;> simp [h, updatedRecord_date, updatedRecord_name]

/-- After processing a row (whatever the classification), the stored record
under the row's key carries the row's fingerprint. -/
theorem processRow_find_hash (sync_id : Nat) (d : Date) (now sync_mode : String)
    (st : SqliteState) (stats : Stats) (r : YieldRow) :
    ∃ q, findRecord (processRow sync_id d now sync_mode st stats r).1.current.yield_data
        d r.product_name = some q ∧ q.source_hash = rowHash r := by
  cases hfind : findRecord st.current.yield_data d r.product_name with
  | none =>
    rw [processRow_insert sync_id d now sync_mode hfind]
    exact ⟨_, findRecord_append_one_self hfind rfl rfl, rfl⟩
  | some ex =>
    by_cases hh : ex.source_hash = rowHash r
    · rw [processRow_unchanged sync_id d now sync_mode hfind hh]
      exact ⟨ex, hfind, hh⟩
    · rw [processRow_update sync_id d now sync_mode hfind hh]
      refine ⟨updatedRecord sync_id now r (pyOrOne ex.sync_count + 1) ex, ?_, rfl⟩
      show findRecord ((capture_yield_history st ex sync_id _).current.yield_data.map _)
          d r.product_name = _
      rw [capture_current_yield_data,
        findRecord_map _ (updKeyFields sync_id now r (pyOrOne ex.sync_count + 1) ex.id),
        hfind]
      simp

/-- Processing a row does not disturb the stored record under any other
product name (given well-formed rowids). -/
theorem processRow_find_other (sync_id : Nat) (d : Date) (now sync_mode : String)
    (st : SqliteState) (stats : Stats) (r : YieldRow) (name : String)
    (hname : name ≠ r.product_name)
    (hids : (st.current.yield_data.map (fun x => x.id)).Nodup) :
    findRecord (processRow sync_id d now sync_mode st stats r).1.current.yield_data d name
      = findRecord st.current.yield_data d name := by
  cases hfind : findRecord st.current.yield_data d r.product_name with
  | none =>
    rw [processRow_insert sync_id d now sync_mode hfind]
    exact findRecord_append_one_other (fun h => hname h.symm)
  | some ex =>
    by_cases hh : ex.source_hash = rowHash r
    · rw [processRow_unchanged sync_id d now sync_mode hfind hh]
    · rw [processRow_update sync_id d now sync_mode hfind hh]
      show findRecord ((capture_yield_history st ex sync_id _).current.yield_data.map _)
          d name = _
      rw [capture_current_yield_data,
        findRecord_map _ (updKeyFields sync_id now r (pyOrOne ex.sync_count + 1) ex.id)]
      cases hy : findRecord st.current.yield_data d name with
      | none => rfl
      | some y =>
        have hyid : ¬ y.id = ex.id := by
          intro hid
          have hymem : y ∈ st.current.yield_data := List.mem_of_find?_eq_some hy
          have hexmem : ex ∈ st.current.yield_data := List.mem_of_find?_eq_some hfind
          have hyx : y = ex :=
            List.inj_on_of_nodup_map hids hymem hexmem hid
          have hyp := List.find?_some hy
          have hexp := List.find?_some hfind
          simp only [decide_eq_true_eq] at hyp hexp
          exact hname (by rw [← hyp.2, hyx, hexp.2])
        simp [hyid]

/-- Processing a row preserves well-formedness of the rowids. -/
theorem processRow_idsOk (sync_id : Nat) (d : Date) (now sync_mode : String)
    (st : SqliteState) (stats : Stats) (r : YieldRow) (hids : idsOk st.current) :
    idsOk (processRow sync_id d now sync_mode st stats r).1.current := by
  obtain ⟨hnd, hlt⟩ := hids
  cases hfind : findRecord st.current.yield_data d r.product_name with
  | none =>
    rw [processRow_insert sync_id d now sync_mode hfind]
    constructor
    · show ((st.current.yield_data ++ [newRecord sync_id d now r st.current.next_yield_id]).map
        (fun x => x.id)).Nodup
      rw [List.map_append]
      rw [List.nodup_append]
      refine ⟨hnd, List.nodup_singleton _, ?_⟩
      intro a ha hb
      obtain ⟨x, hx, hxa⟩ := List.mem_map.mp ha
      have hb' : a = st.current.next_yield_id := by
        simpa [newRecord] using hb
      have := hlt x hx
      omega
    · intro x hx
      show x.id < st.current.next_yield_id + 1
      rcases List.mem_append.mp hx with h | h
      · exact Nat.lt_succ_of_lt (hlt x h)
      · simp only [List.mem_singleton] at h
        subst h
        exact Nat.lt_succ_self _
  | some ex =>
    by_cases hh : ex.source_hash = rowHash r
    · rw [processRow_unchanged sync_id d now sync_mode hfind hh]
      exact ⟨hnd, hlt⟩
    · rw [processRow_update sync_id d now sync_mode hfind hh]
      have hidmap : ∀ x : YieldRecord,
          (if x.id = ex.id then updatedRecord sync_id now r (pyOrOne ex.sync_count + 1) x
            else x).id = x.id := by
        intro x
        by_cases h : x.id = ex.id <;> simp [h, updatedRecord_id]
      constructor
      · show ((st.current.yield_data.map (fun y =>
            if y.id = ex.id then updatedRecord sync_id now r (pyOrOne ex.sync_count + 1) y
            else y)).map (fun x => x.id)).Nodup
        rw [List.map_map]
        have : ((fun x : YieldRecord => x.id) ∘ fun x =>
            if x.id = ex.id then updatedRecord sync_id now r (pyOrOne ex.sync_count + 1) x
            else x) = (fun x : YieldRecord => x.id) := by
          funext x
          simp [Function.comp, hidmap x]
        rw [this]
        exact hnd
      · intro x hx
        have hx' : x ∈ st.current.yield_data.map (fun y =>
            if y.id = ex.id then updatedRecord sync_id now r (pyOrOne ex.sync_count + 1) y
            else y) := hx
        obtain ⟨y, hy, hyx⟩ := List.mem_map.mp hx'
        have hxy : x.id = y.id := by rw [← hyx]; exact hidmap y
        show x.id < st.current.next_yield_id
        rw [hxy]
        exact hlt y hy

/-- Row reconciliation never touches the sync_log table (in the transaction
or durably). -/
theorem processRow_sync_log (sync_id : Nat) (d : Date) (now sync_mode : String)
    (st : SqliteState) (stats : Stats) (r : YieldRow) (L : List SyncLogEntry)
    (h1 : st.current.sync_log = L) (h2 : st.committed.sync_log = L) :
    (processRow sync_id d now sync_mode st stats r).1.current.sync_log = L
      ∧ (processRow sync_id d now sync_mode st stats r).1.committed.sync_log = L := by
  cases hfind : findRecord st.current.yield_data d r.product_name with
  | none =>
    rw [processRow_insert sync_id d now sync_mode hfind]
    exact ⟨h1, h2⟩
  | some ex =>
    by_cases hh : ex.source_hash = rowHash r
    · rw [processRow_unchanged sync_id d now sync_mode hfind hh]
      exact ⟨h1, h2⟩
    · rw [processRow_update sync_id d now sync_mode hfind hh]
      exact ⟨h1, h1⟩

/-- Row reconciliation keeps every history row committed: if current and
durable history agree before a row, they agree after it (the only history
write, capture_yield_history, commits at once). -/
theorem processRow_history_committed (sync_id : Nat) (d : Date) (now sync_mode : String)
    (st : SqliteState) (stats : Stats) (r : YieldRow)
    (h : st.current.yield_history = st.committed.yield_history) :
    (processRow sync_id d now sync_mode st stats r).1.current.yield_history
      = (processRow sync_id d now sync_mode st stats r).1.committed.yield_history := by
  cases hfind : findRecord st.current.yield_data d r.product_name with
  | none =>
    rw [processRow_insert sync_id d now sync_mode hfind]
    exact h
  | some ex =>
    by_cases hh : ex.source_hash = rowHash r
    · rw [processRow_unchanged sync_id d now sync_mode hfind hh]
      exact h
    · rw [processRow_update sync_id d now sync_mode hfind hh]
      rfl

/-- The row loop on a list of well-extracted rows: ids stay well-formed. -/
theorem processRows_idsOk (sync_id : Nat) (d : Date) (now sync_mode : String) :
    ∀ (rows : List YieldRow) (st : SqliteState) (stats : Stats),
    idsOk st.current →
    idsOk (processRows sync_id d now sync_mode st stats (rows.map Except.ok)).1.current := by
  intro rows
  induction rows with
  | nil => intro st stats h; exact h
  | cons r rest ih =>
    intro st stats h
    simp only [List.map_cons, processRows]
    exact ih _ _ (processRow_idsOk sync_id d now sync_mode st stats r h)

/-- The row loop does not disturb stored records under keys absent from the
processed rows. -/
theorem processRows_find_other (sync_id : Nat) (d : Date) (now sync_mode : String) :
    ∀ (rows : List YieldRow) (st : SqliteState) (stats : Stats) (name : String),
    idsOk st.current →
    name ∉ rows.map (fun r => r.product_name) →
    findRecord (processRows sync_id d now sync_mode st stats
        (rows.map Except.ok)).1.current.yield_data d name
      = findRecord st.current.yield_data d name := by
  intro rows
  induction rows with
  | nil => intro st stats name _ _; rfl
  | cons r rest ih =>
    intro st stats name hids hname
    simp only [List.map_cons, List.mem_cons, not_or] at hname
    simp only [List.map_cons, processRows]
    rw [ih _ _ name (processRow_idsOk sync_id d now sync_mode st stats r hids) hname.2]
    exact processRow_find_other sync_id d now sync_mode st stats r name hname.1 hids.1

/-- First pass: after reconciling a list of rows with pairwise distinct
product names, every row's key maps to a stored record whose fingerprint is
that row's fingerprint. -/
theorem processRows_hash_after (sync_id : Nat) (d : Date) (now sync_mode : String) :
    ∀ (rows : List YieldRow) (st : SqliteState) (stats : Stats),
    idsOk st.current →
    (rows.map (fun r => r.product_name)).Nodup →
    ∀ r ∈ rows, ∃ q,
      findRecord (processRows sync_id d now sync_mode st stats
          (rows.map Except.ok)).1.current.yield_data d r.product_name = some q
        ∧ q.source_hash = rowHash r := by
  intro rows
  induction rows with
  | nil => intro st stats _ _ r hr; cases hr
  | cons r0 rest ih =>
    intro st stats hids hnd r hr
    have hids' := processRow_idsOk sync_id d now sync_mode st stats r0 hids
    simp only [List.map_cons, List.nodup_cons] at hnd
    simp only [List.map_cons, processRows]
    rcases List.mem_cons.mp hr with h | h
    · subst h
      obtain ⟨q, hq, hqh⟩ := processRow_find_hash sync_id d now sync_mode st stats r
      refine ⟨q, ?_, hqh⟩
      rw [processRows_find_other sync_id d now sync_mode rest _ _ r.product_name hids' hnd.1]
      exact hq
    · exact ih _ _ hids' hnd.2 r h

/-- Second pass: if every row's stored record already carries the row's
fingerprint, the row loop classifies everything UNCHANGED, writes nothing,
and only bumps the unchanged counter. -/
theorem processRows_replay (sync_id : Nat) (d : Date) (now sync_mode : String) :
    ∀ (rows : List YieldRow) (st : SqliteState) (stats : Stats),
    (∀ r ∈ rows, ∃ q, findRecord st.current.yield_data d r.product_name = some q
        ∧ q.source_hash = rowHash r) →
    processRows sync_id d now sync_mode st stats (rows.map Except.ok)
      = (st, { stats with unchanged := stats.unchanged + rows.length }, none) := by
  intro rows
  induction rows with
  | nil =>
    intro st stats _
    show (st, stats, none) = _
    simp
  | cons r0 rest ih =>
    intro st stats h
    obtain ⟨q, hq, hqh⟩ := h r0 (List.mem_cons_self r0 rest)
    simp only [List.map_cons, processRows]
    rw [processRow_unchanged sync_id d now sync_mode hq hqh]
    rw [ih st _ (fun r hr => h r (List.mem_cons_of_mem r0 hr))]
    have : stats.unchanged + 1 + rest.length = stats.unchanged + (r0 :: rest).length := by
      simp only [List.length_cons]
      omega
    rw [this]

/-- A day whose fetch raises is skipped completely: state and statistics are
exactly as if the day had not been visited. -/
theorem processDay_fetch_error (fetch : Date → Except String (List RawRow))
    (sync_id : Nat) (now sync_mode : String) (x : SqliteState × Stats) (d : Date)
    (msg : String) (h : fetch d = Except.error msg) :
    processDay fetch sync_id now sync_mode x d = x := by
  simp [processDay, h]

/-- Dropping a fetch-failing day from the visited range does not change the
run at all: the rest of the range is processed identically. -/
theorem syncDays_error_day (fetch : Date → Except String (List RawRow))
    (sync_id : Nat) (now sync_mode : String) (x : SqliteState × Stats)
    (d : Date) (msg : String) (ds1 ds2 : List Date)
    (h : fetch d = Except.error msg) :
    syncDays fetch sync_id now sync_mode x (ds1 ++ d :: ds2)
      = syncDays fetch sync_id now sync_mode x (ds1 ++ ds2) := by
  unfold syncDays
  rw [List.foldl_append, List.foldl_append, List.foldl_cons,
    processDay_fetch_error fetch sync_id now sync_mode _ d msg h]

/-- The row loop (raw rows, failures included) never touches sync_log. -/
theorem processRowsRaw_sync_log (sync_id : Nat) (d : Date) (now sync_mode : String) :
    ∀ (rows : List RawRow) (st : SqliteState) (stats : Stats) (L : List SyncLogEntry),
    st.current.sync_log = L → st.committed.sync_log = L →
    (processRows sync_id d now sync_mode st stats rows).1.current.sync_log = L
      ∧ (processRows sync_id d now sync_mode st stats rows).1.committed.sync_log = L := by
  intro rows
  induction rows with
  | nil => intro st stats L h1 h2; exact ⟨h1, h2⟩
  | cons rr rest ih =>
    intro st stats L h1 h2
    cases rr with
    | error e => exact ⟨h1, h2⟩
    | ok r =>
      simp only [processRows]
      obtain ⟨h1', h2'⟩ := processRow_sync_log sync_id d now sync_mode st stats r L h1 h2
      exact ih _ _ L h1' h2'

/-- The day loop body never touches sync_log. -/
theorem processDay_sync_log (fetch : Date → Except String (List RawRow))
    (sync_id : Nat) (now sync_mode : String) (x : SqliteState × Stats) (d : Date)
    (L : List SyncLogEntry)
    (h1 : x.1.current.sync_log = L) (h2 : x.1.committed.sync_log = L) :
    (processDay fetch sync_id now sync_mode x d).1.current.sync_log = L
      ∧ (processDay fetch sync_id now sync_mode x d).1.committed.sync_log = L := by
  cases hf : fetch d with
  | error e =>
    rw [processDay_fetch_error fetch sync_id now sync_mode x d e hf]
    exact ⟨h1, h2⟩
  | ok rows =>
    simp only [processDay, hf]
    obtain ⟨h1', h2'⟩ := processRowsRaw_sync_log sync_id d now sync_mode rows x.1
      { x.2 with fetched := x.2.fetched + rows.length } L h1 h2
    rcases hP : processRows sync_id d now sync_mode x.1
        { x.2 with fetched := x.2.fetched + rows.length } rows with ⟨st', stats', err⟩
    rw [hP] at h1' h2'
    cases err with
    | none => exact ⟨h1', h1'⟩
    | some e => exact ⟨h1', h2'⟩

/-- The whole day loop never touches sync_log. -/
theorem syncDays_sync_log (fetch : Date → Except String (List RawRow))
    (sync_id : Nat) (now sync_mode : String) :
    ∀ (ds : List Date) (x : SqliteState × Stats) (L : List SyncLogEntry),
    x.1.current.sync_log = L → x.1.committed.sync_log = L →
    (syncDays fetch sync_id now sync_mode x ds).1.current.sync_log = L
      ∧ (syncDays fetch sync_id now sync_mode x ds).1.committed.sync_log = L := by
  intro ds
  induction ds with
  | nil => intro x L h1 h2; exact ⟨h1, h2⟩
  | cons dd rest ih =>
    intro x L h1 h2
    obtain ⟨h1', h2'⟩ := processDay_sync_log fetch sync_id now sync_mode x dd L h1 h2
    exact ih _ L h1' h2'

/-- Splitting the row loop at the first raising row: everything before it is
applied, the loop stops with its message, nothing after it runs. -/
theorem processRows_ok_prefix_fail (sync_id : Nat) (d : Date) (now sync_mode : String) :
    ∀ (rows : List YieldRow) (st : SqliteState) (stats : Stats) (msg : String)
      (rest : List RawRow),
    processRows sync_id d now sync_mode st stats
        (rows.map Except.ok ++ Except.error msg :: rest)
      = ((processRows sync_id d now sync_mode st stats (rows.map Except.ok)).1,
         (processRows sync_id d now sync_mode st stats (rows.map Except.ok)).2.1,
         some msg) := by
  intro rows
  induction rows with
  | nil => intro st stats msg rest; rfl
  | cons r0 rtl ih =>
    intro st stats msg rest
    simp only [List.map_cons, List.cons_append, processRows]
    exact ih _ _ msg rest

/-- The row loop keeps current and durable history views equal. -/
theorem processRowsRaw_history (sync_id : Nat) (d : Date) (now sync_mode : String) :
    ∀ (rows : List RawRow) (st : SqliteState) (stats : Stats),
    st.current.yield_history = st.committed.yield_history →
    (processRows sync_id d now sync_mode st stats rows).1.current.yield_history
      = (processRows sync_id d now sync_mode st stats rows).1.committed.yield_history := by
  intro rows
  induction rows with
  | nil => intro st stats h; exact h
  | cons rr rest ih =>
    intro st stats h
    cases rr with
    | error e => exact h
    | ok r =>
      simp only [processRows]
      exact ih _ _ (processRow_history_committed sync_id d now sync_mode st stats r h)

/-- A day whose row loop raises midway returns the partial state with the
day-end commit skipped. -/
theorem processDay_midfail (fetch : Date → Except String (List RawRow))
    (sync_id : Nat) (now sync_mode : String) (x : SqliteState × Stats) (d : Date)
    (rows : List YieldRow) (msg : String) (rest : List RawRow)
    (hf : fetch d = Except.ok (rows.map Except.ok ++ Except.error msg :: rest)) :
    processDay fetch sync_id now sync_mode x d
      = ((processRows sync_id d now sync_mode x.1
            { x.2 with fetched := x.2.fetched +
                (rows.map Except.ok ++ Except.error msg :: rest).length }
            (rows.map Except.ok)).1,
         (processRows sync_id d now sync_mode x.1
            { x.2 with fetched := x.2.fetched +
                (rows.map Except.ok ++ Except.error msg :: rest).length }
            (rows.map Except.ok)).2.1) := by
  simp only [processDay, hf]
  rw [processRows_ok_prefix_fail]

/-- Finalizing the sync_log entry maps the known log contents pointwise. -/
theorem update_completion_log (st : SqliteState) (sync_id : Nat) (status : String)
    (f i u n : Nat) (err : Option String) (now : String) (L : List SyncLogEntry)
    (hcur : st.current.sync_log = L) :
    (update_sync_log_completion st sync_id status f i u n err now).committed.sync_log
      = L.map (fun en => if en.id = sync_id then
          { en with
            completed_at := some now
            status := status
            records_fetched := some f
            records_inserted := some i
            records_updated := some u
            records_unchanged := some n
            error_message := err }
        else en) := by
  show (st.current.sync_log).map _ = _
  rw [hcur]

/-! ### Claim theorems -/

/-- C7: incremental range planning.  If a watermark row exists with a
non-null last_synced_date, the planned start is that date plus one day;
otherwise (no row, or a null cursor) the start is the full-sync epoch
2025-01-01, the same start a full sync uses; the end defaults to yesterday.
In particular, last_synced_date = 2025-03-10 with today = 2025-03-15 plans
start = 2025-03-11, end = 2025-03-14. -/
theorem C7_incremental_range_planning :
    (∀ (today last : Date), get_date_range "incremental" (some (some last)) today
        = (last.next, get_yesterday today))
    ∧ (∀ today : Date, get_date_range "incremental" none today
        = ((⟨2025, 1, 1⟩ : Date), get_yesterday today))
    ∧ (∀ today : Date, get_date_range "incremental" (some none) today
        = ((⟨2025, 1, 1⟩ : Date), get_yesterday today))
    ∧ (∀ (today : Date) (wm : Option (Option Date)),
        get_date_range "full" wm today = get_date_range "incremental" none today)
    ∧ get_date_range "incremental" (some (some ⟨2025, 3, 10⟩)) ⟨2025, 3, 15⟩
        = (⟨2025, 3, 11⟩, ⟨2025, 3, 14⟩) := by
  refine ⟨fun _ _ => rfl, fun _ => rfl, fun _ => rfl, fun _ wm => ?_, by decide⟩
  cases wm with
  | none => rfl
  | some w => cases w with
    | none => rfl
    | some _ => rfl

/-- C9: the derived yield quantity of a fetched row equals
blend + ci − oi − rec + ship with nulls as zero; the record written for a
fresh row carries exactly this value, and on the spec's example inputs
(oi=10, rec=5, ship=20, blend=3, ci=2) the value is 10. -/
theorem C9_derived_yield_qty (sync_id : Nat) (d : Date) (now sync_mode : String)
    (st : SqliteState) (stats : Stats) (r : YieldRow)
    (hnone : findRecord st.current.yield_data d r.product_name = none) :
    (∃ q, findRecord (processRow sync_id d now sync_mode st stats r).1.current.yield_data
          d r.product_name = some q
        ∧ q.yield_qty = pyOrZero r.blend + pyOrZero r.ci - pyOrZero r.oi
            - pyOrZero r.rcpt + pyOrZero r.ship)
    ∧ calc_yield_qty (some 10) (some 5) (some 20) (some 3) (some 2) = 10 := by
  constructor
  · rw [processRow_insert sync_id d now sync_mode hnone]
    exact ⟨_, findRecord_append_one_self hnone rfl rfl, rfl⟩
  · decide

/-- Witness for C9 at a concrete input: inserting the example row into the
empty store yields a record with yield_qty 10. -/
theorem C9_witness :
    (∃ q, findRecord (processRow 1 d0 "t1" "incremental" (openConn DB.empty)
          Stats.start exRow).1.current.yield_data d0 exRow.product_name = some q
        ∧ q.yield_qty = pyOrZero exRow.blend + pyOrZero exRow.ci - pyOrZero exRow.oi
            - pyOrZero exRow.rcpt + pyOrZero exRow.ship)
    ∧ calc_yield_qty (some 10) (some 5) (some 20) (some 3) (some 2) = 10 :=
  C9_derived_yield_qty 1 d0 "t1" "incremental" (openConn DB.empty) Stats.start exRow rfl

/-- C10: change detection compares only the five measures through the
fingerprint.  A fetched row whose coerced measures equal those of the stored
record, while its product_class differs, is classified UNCHANGED: the state
is untouched (so the stored record keeps its old product_class) and only the
unchanged counter is bumped. -/
theorem C10_fingerprint_measures_only (sync_id : Nat) (d : Date) (now sync_mode : String)
    (st : SqliteState) (stats : Stats) (r : YieldRow) (ex : YieldRecord)
    (hfind : findRecord st.current.yield_data d r.product_name = some ex)
    (hinv : ex.source_hash = compute_source_hash ex.oi_qty ex.rec_qty ex.ship_qty
        ex.blend_qty ex.ci_qty)
    (h1 : pyOrZero ex.oi_qty = pyOrZero r.oi)
    (h2 : pyOrZero ex.rec_qty = pyOrZero r.rcpt)
    (h3 : pyOrZero ex.ship_qty = pyOrZero r.ship)
    (h4 : pyOrZero ex.blend_qty = pyOrZero r.blend)
    (h5 : pyOrZero ex.ci_qty = pyOrZero r.ci)
    (hclass : ex.product_class ≠ r.product_class) :
    processRow sync_id d now sync_mode st stats r
        = (st, { stats with unchanged := stats.unchanged + 1 })
      ∧ findRecord (processRow sync_id d now sync_mode st stats r).1.current.yield_data
          d r.product_name = some ex := by
  have hh : ex.source_hash = rowHash r := by
    rw [hinv]
    unfold rowHash compute_source_hash
    rw [h1, h2, h3, h4, h5]
  have heq := @processRow_unchanged sync_id d now sync_mode st stats r ex hfind hh
  refine ⟨heq, ?_⟩
  rw [heq]
  exact hfind

/-- Witness for C10 at a concrete input: a row equal to exRec in all five
measures but with product_class F instead of P is classified UNCHANGED and
the stored record is untouched. -/
theorem C10_witness :
    processRow 1 d0 "t1" "incremental" (openConn exDb) Stats.start clRow
        = (openConn exDb, { Stats.start with unchanged := Stats.start.unchanged + 1 })
      ∧ findRecord (processRow 1 d0 "t1" "incremental" (openConn exDb)
          Stats.start clRow).1.current.yield_data d0 clRow.product_name = some exRec :=
  C10_fingerprint_measures_only 1 d0 "t1" "incremental" (openConn exDb) Stats.start
    clRow exRec (by decide) rfl (by decide) (by decide) (by decide) (by decide)
    (by decide) (by decide)

/-- C8: a row classified UPDATE increments the stored sync_count by one
relative to its prior value and leaves first_synced_at untouched; a row
classified INSERT creates the record with sync_count = 1 and
first_synced_at = now. -/
theorem C8_sync_count_first_synced (sync_id : Nat) (d : Date) (now sync_mode : String)
    (st : SqliteState) (stats : Stats) (r r2 : YieldRow) (ex : YieldRecord) (n : Nat)
    (hfind : findRecord st.current.yield_data d r.product_name = some ex)
    (hh : ¬ ex.source_hash = rowHash r)
    (hsc : ex.sync_count = some n) (hn : 1 ≤ n)
    (hfind2 : findRecord st.current.yield_data d r2.product_name = none) :
    (∃ q, findRecord (processRow sync_id d now sync_mode st stats r).1.current.yield_data
          d r.product_name = some q
        ∧ q.sync_count = some (n + 1) ∧ q.first_synced_at = ex.first_synced_at)
    ∧ (∃ q, findRecord (processRow sync_id d now sync_mode st stats r2).1.current.yield_data
          d r2.product_name = some q
        ∧ q.sync_count = some 1 ∧ q.first_synced_at = some now) := by
  have hpy : pyOrOne ex.sync_count = n := by
    rw [hsc]
    cases n with
    | zero => omega
    | succ m => rfl
  constructor
  · rw [processRow_update sync_id d now sync_mode hfind hh]
    refine ⟨updatedRecord sync_id now r (pyOrOne ex.sync_count + 1) ex, ?_, ?_, rfl⟩
    · show findRecord ((capture_yield_history st ex sync_id _).current.yield_data.map _)
          d r.product_name = _
      rw [capture_current_yield_data,
        findRecord_map _ (updKeyFields sync_id now r (pyOrOne ex.sync_count + 1) ex.id),
        hfind]
      simp
    · show some (pyOrOne ex.sync_count + 1) = some (n + 1)
      rw [hpy]
  · rw [processRow_insert sync_id d now sync_mode hfind2]
    exact ⟨_, findRecord_append_one_self hfind2 rfl rfl, rfl, rfl⟩

/-- Witness for C8 at concrete inputs: updating exRec (sync_count 1) via a
changed row gives sync_count 2 with first_synced_at kept at t0, and inserting
an unseen product gives sync_count 1 with first_synced_at = t1. -/
theorem C8_witness :
    (∃ q, findRecord (processRow 1 d0 "t1" "incremental" (openConn exDb)
          Stats.start chRow).1.current.yield_data d0 chRow.product_name = some q
        ∧ q.sync_count = some (1 + 1) ∧ q.first_synced_at = exRec.first_synced_at)
    ∧ (∃ q, findRecord (processRow 1 d0 "t1" "incremental" (openConn exDb)
          Stats.start nwRow).1.current.yield_data d0 nwRow.product_name = some q
        ∧ q.sync_count = some 1 ∧ q.first_synced_at = some "t1") :=
  C8_sync_count_first_synced 1 d0 "t1" "incremental" (openConn exDb) Stats.start
    chRow nwRow exRec 1 (by decide) (by decide) rfl (by decide) (by decide)

/-- C5: the change-detecting upserter is idempotent.  Replaying the same
fetched rows for a date (pairwise distinct product names, no intervening
change) leaves the connection state identical — zero new history rows, no
record writes — classifies every row UNCHANGED (the unchanged counter grows
by exactly the row count), and leaves the inserted/updated counters alone. -/
theorem C5_idempotent_replay (sync_id : Nat) (d : Date) (now sync_mode : String)
    (rows : List YieldRow) (st : SqliteState) (stats : Stats)
    (hids : idsOk st.current)
    (hnd : (rows.map (fun r => r.product_name)).Nodup) :
    processRows sync_id d now sync_mode
        (processRows sync_id d now sync_mode st stats (rows.map Except.ok)).1
        (processRows sync_id d now sync_mode st stats (rows.map Except.ok)).2.1
        (rows.map Except.ok)
      = ((processRows sync_id d now sync_mode st stats (rows.map Except.ok)).1,
         { (processRows sync_id d now sync_mode st stats (rows.map Except.ok)).2.1 with
            unchanged := (processRows sync_id d now sync_mode st stats
              (rows.map Except.ok)).2.1.unchanged + rows.length },
         none) :=
  processRows_replay sync_id d now sync_mode rows _ _
    (processRows_hash_after sync_id d now sync_mode rows st stats hids hnd)

/-- Witness for C5 at a concrete input: replaying the one-row batch [exRow]
over the empty store is a no-op on the second pass. -/
theorem C5_witness :
    processRows 1 d0 "t1" "incremental"
        (processRows 1 d0 "t1" "incremental" (openConn DB.empty) Stats.start
          ([exRow].map Except.ok)).1
        (processRows 1 d0 "t1" "incremental" (openConn DB.empty) Stats.start
          ([exRow].map Except.ok)).2.1
        ([exRow].map Except.ok)
      = ((processRows 1 d0 "t1" "incremental" (openConn DB.empty) Stats.start
            ([exRow].map Except.ok)).1,
         { (processRows 1 d0 "t1" "incremental" (openConn DB.empty) Stats.start
              ([exRow].map Except.ok)).2.1 with
            unchanged := (processRows 1 d0 "t1" "incremental" (openConn DB.empty)
              Stats.start ([exRow].map Except.ok)).2.1.unchanged + [exRow].length },
         none) :=
  C5_idempotent_replay 1 d0 "t1" "incremental" [exRow] (openConn DB.empty) Stats.start
    ⟨List.nodup_nil, by intro x hx; cases hx⟩ (by decide)

/-- C2: a fetch error on one day of a range is caught and the day skipped:
the run over a range containing the failing day equals the run over the range
with that day removed (every other day is processed and committed exactly as
usual), and the run's sync_log entry is still finalized with status success
and no error message.  A single failing day never aborts the range or marks
the run failed. -/
theorem C2_day_error_skipped (fetch : Date → Except String (List RawRow))
    (sync_id : Nat) (now sync_mode : String) (x : SqliteState × Stats)
    (d : Date) (msg : String) (ds1 ds2 : List Date)
    (hd : fetch d = Except.error msg)
    (db : DB) (hlog : db.sync_log = []) (s e : Date) (reason : String) :
    syncDays fetch sync_id now sync_mode x (ds1 ++ d :: ds2)
        = syncDays fetch sync_id now sync_mode x (ds1 ++ ds2)
    ∧ ∃ en, (sync_yield_data fetch db s e sync_mode reason now).1.sync_log = [en]
        ∧ en.status = "success" ∧ en.error_message = none
        ∧ en.completed_at = some now := by
  refine ⟨syncDays_error_day fetch sync_id now sync_mode x d msg ds1 ds2 hd, ?_⟩
  set st1 := (create_sync_log_entry (openConn db) "yield" sync_mode reason s e now).1 with hst1
  have h1 : st1.current.sync_log
      = [⟨db.next_sync_id, "yield", sync_mode, reason, s, e, now, none, "running",
          none, none, none, none, none⟩] := by
    show db.sync_log ++ [⟨db.next_sync_id, "yield", sync_mode, reason, s, e, now,
        none, "running", none, none, none, none, none⟩] = _
    rw [hlog]
    rfl
  have h2 : st1.committed.sync_log
      = [⟨db.next_sync_id, "yield", sync_mode, reason, s, e, now, none, "running",
          none, none, none, none, none⟩] := h1
  obtain ⟨g1, g2⟩ := syncDays_sync_log fetch db.next_sync_id now sync_mode
    (dateRange s e) (st1, Stats.start) _ h1 h2
  set P := syncDays fetch db.next_sync_id now sync_mode (st1, Stats.start) (dateRange s e)
    with hP
  have hmap := update_completion_log P.1 db.next_sync_id "success"
    P.2.fetched P.2.inserted P.2.updated P.2.unchanged none now _ g1
  have hmap' : (update_sync_log_completion P.1 db.next_sync_id "success"
        P.2.fetched P.2.inserted P.2.updated P.2.unchanged none now).committed.sync_log
      = [⟨db.next_sync_id, "yield", sync_mode, reason, s, e, now, some now, "success",
          some P.2.fetched, some P.2.inserted, some P.2.updated, some P.2.unchanged,
          none⟩] := by
    rw [hmap]
    simp
  exact ⟨_, hmap', rfl, rfl, rfl⟩

/-- Witness for C2 at a concrete input: with 2025-03-12 failing inside the
range 2025-03-11 .. 2025-03-14, the run equals the run over the other three
days and the sync_log entry ends success. -/
theorem C2_witness :
    syncDays dayFailFetch 1 "t1" "incremental" (openConn DB.empty, Stats.start)
        ([⟨2025, 3, 11⟩] ++ ⟨2025, 3, 12⟩ :: [⟨2025, 3, 13⟩, ⟨2025, 3, 14⟩])
      = syncDays dayFailFetch 1 "t1" "incremental" (openConn DB.empty, Stats.start)
        ([⟨2025, 3, 11⟩] ++ [⟨2025, 3, 13⟩, ⟨2025, 3, 14⟩])
    ∧ ∃ en, (sync_yield_data dayFailFetch DB.empty ⟨2025, 3, 11⟩ ⟨2025, 3, 14⟩
          "incremental" "scheduled" "t1").1.sync_log = [en]
        ∧ en.status = "success" ∧ en.error_message = none
        ∧ en.completed_at = some "t1" :=
  C2_day_error_skipped dayFailFetch 1 "t1" "incremental" (openConn DB.empty, Stats.start)
    ⟨2025, 3, 12⟩ "timeout" [⟨2025, 3, 11⟩] [⟨2025, 3, 13⟩, ⟨2025, 3, 14⟩] rfl
    DB.empty rfl ⟨2025, 3, 11⟩ ⟨2025, 3, 14⟩ "scheduled"

/-- C6: a degenerate planned range (start > end) makes main skip the dataset
entirely: the invocation behaves exactly as if that dataset were absent from
the list — so no sync_log row is created, no fetch or reconciliation write
happens for it, its sync_status row is not touched, and no error or exit is
produced on its account. -/
theorem C6_empty_plan_skipped
    (attempt : String → Date → Date → DB → DB × Except String Nat)
    (mode : String) (ov : Option (Date × Date)) (today : Date) (now : String)
    (dt : String) (rest : List String) (db : DB)
    (hskip : Date.lt (plannedRange mode ov db dt today).2
        (plannedRange mode ov db dt today).1 = true) :
    mainLoop attempt mode ov today now (dt :: rest) db
      = mainLoop attempt mode ov today now rest db := by
  simp only [mainLoop, hskip, if_true]

/-- Witness for C6 at a concrete input: with the watermark already at
yesterday (2025-03-14), the planned incremental range for 2025-03-15 is
degenerate and the yield dataset is skipped — even though the provided sync
call would fail fatally if it were invoked. -/
theorem C6_witness :
    mainLoop connFailAttempt "incremental" none ⟨2025, 3, 15⟩ "t1" ["yield"] wmDbCaughtUp
      = mainLoop connFailAttempt "incremental" none ⟨2025, 3, 15⟩ "t1" [] wmDbCaughtUp :=
  C6_empty_plan_skipped connFailAttempt "incremental" none ⟨2025, 3, 15⟩ "t1"
    "yield" [] wmDbCaughtUp (by decide)

/-- C3 counterexample: with two datasets and the first one failing fatally,
the process records the error for the first dataset and exits at once; the
second dataset is never attempted (its sync_status row does not even exist
afterwards), refuting the claim that the remaining datasets are still
attempted. -/
theorem C3_counterexample :
    mainLoop connFailAttempt "incremental" none ⟨2025, 3, 15⟩ "t1" ["yield", "sales"]
        DB.empty
      = ({ DB.empty with sync_status := [⟨"yield", some ⟨2025, 3, 14⟩, "t1", 0, 0,
            "error", some "cannot connect"⟩] }, true)
    ∧ ((mainLoop connFailAttempt "incremental" none ⟨2025, 3, 15⟩ "t1"
        ["yield", "sales"] DB.empty).1.sync_status.map (fun x => x.data_type))
        = ["yield"] :=
  ⟨by decide, by decide⟩

/-- C3 amended: when a dataset's sync raises fatally, the error is recorded
in that dataset's sync_status row and reflected in the exit status, but the
loop stops immediately (sys.exit(1)): the result does not depend on the
datasets listed after the failing one, which are never attempted. -/
theorem C3_amended_fatal_stops_loop
    (attempt : String → Date → Date → DB → DB × Except String Nat)
    (mode : String) (ov : Option (Date × Date)) (today : Date) (now : String)
    (dt : String) (rest : List String) (db db' : DB) (msg : String)
    (hrange : Date.lt (plannedRange mode ov db dt today).2
        (plannedRange mode ov db dt today).1 = false)
    (hatt : attempt dt (plannedRange mode ov db dt today).1
        (plannedRange mode ov db dt today).2 db = (db', Except.error msg)) :
    mainLoop attempt mode ov today now (dt :: rest) db
      = (update_sync_status db' today dt "error" 0 0 now (some msg), true) := by
  simp only [mainLoop, hrange, hatt]
  rfl

/-- Witness for C3's amended statement at a concrete input. -/
theorem C3_amended_witness :
    mainLoop connFailAttempt "incremental" none ⟨2025, 3, 15⟩ "t1" ["yield", "sales"]
        DB.empty
      = (update_sync_status DB.empty ⟨2025, 3, 15⟩ "yield" "error" 0 0 "t1"
          (some "cannot connect"), true) :=
  C3_amended_fatal_stops_loop connFailAttempt "incremental" none ⟨2025, 3, 15⟩ "t1"
    "yield" ["sales"] DB.empty DB.empty "cannot connect" (by decide) rfl

/-- C4 counterexample: day 2025-03-11's reconciliation raises on its second
row, yet that day's earlier writes persist to the end of the run: the durable
history holds the snapshot captured for the first row and the durable record
carries the first row's new values — refuting all-or-nothing day atomicity. -/
theorem C4_counterexample :
    ((sync_yield_data midFailFetch exDb d0 d0 "incremental" "scheduled"
        "t1").1.yield_history).length = 1
    ∧ findRecord (sync_yield_data midFailFetch exDb d0 d0 "incremental" "scheduled"
          "t1").1.yield_data d0 "ALKY"
        = some (updatedRecord 1 "t1" chRow 2 exRec) :=
  ⟨by decide, by decide⟩

/-- C4 amended: one day's writes are committed together only on the happy
path.  When the row loop raises midway through a day, the day is not rolled
back: the resulting state is exactly the partial state left by the rows
processed before the failure (their record writes stay pending on the
connection, to be persisted by the next commit, e.g. the run-end log
finalization), and every history snapshot captured during the day is already
durably committed at the moment of the failure. -/
theorem C4_amended_no_day_rollback (fetch : Date → Except String (List RawRow))
    (sync_id : Nat) (now sync_mode : String) (x : SqliteState × Stats) (d : Date)
    (rows : List YieldRow) (msg : String) (rest : List RawRow)
    (hf : fetch d = Except.ok (rows.map Except.ok ++ Except.error msg :: rest))
    (hh : x.1.current.yield_history = x.1.committed.yield_history) :
    processDay fetch sync_id now sync_mode x d
      = ((processRows sync_id d now sync_mode x.1
            { x.2 with fetched := x.2.fetched +
                (rows.map Except.ok ++ Except.error msg :: rest).length }
            (rows.map Except.ok)).1,
         (processRows sync_id d now sync_mode x.1
            { x.2 with fetched := x.2.fetched +
                (rows.map Except.ok ++ Except.error msg :: rest).length }
            (rows.map Except.ok)).2.1)
    ∧ (processDay fetch sync_id now sync_mode x d).1.current.yield_history
        = (processDay fetch sync_id now sync_mode x d).1.committed.yield_history := by
  have h := processDay_midfail fetch sync_id now sync_mode x d rows msg rest hf
  refine ⟨h, ?_⟩
  rw [h]
  exact processRowsRaw_history sync_id d now sync_mode (rows.map Except.ok) x.1 _ hh

/-- Witness for C4's amended statement at a concrete input: the failing
2025-03-11 batch leaves exactly the first row's update applied and its
history snapshot committed. -/
theorem C4_amended_witness :
    processDay midFailFetch 1 "t1" "incremental" (openConn exDb, Stats.start) d0
      = ((processRows 1 d0 "t1" "incremental" (openConn exDb)
            { Stats.start with fetched := Stats.start.fetched +
                ([chRow].map Except.ok ++ Except.error "row error" :: []).length }
            ([chRow].map Except.ok)).1,
         (processRows 1 d0 "t1" "incremental" (openConn exDb)
            { Stats.start with fetched := Stats.start.fetched +
                ([chRow].map Except.ok ++ Except.error "row error" :: []).length }
            ([chRow].map Except.ok)).2.1)
    ∧ (processDay midFailFetch 1 "t1" "incremental" (openConn exDb, Stats.start)
          d0).1.current.yield_history
        = (processDay midFailFetch 1 "t1" "incremental" (openConn exDb, Stats.start)
          d0).1.committed.yield_history :=
  C4_amended_no_day_rollback midFailFetch 1 "t1" "incremental"
    (openConn exDb, Stats.start) d0 [chRow] "row error" [] rfl rfl

/-- C1 evaluated at the failing inputs: update_sync_status moves the
watermark's date cursor to yesterday even when it records status error (here
from 2025-03-01 to 2025-03-14 for a failed run), and a run recorded success
in which day 2025-03-12 failed likewise lands the cursor on 2025-03-14, past
the failed day — so the cursor advances on failure, contrary to the claim. -/
theorem C1_cursor_always_advances :
    (update_sync_status wmDbEarly ⟨2025, 3, 15⟩ "yield" "error" 0 0 "t1"
        (some "boom")).sync_status
      = [⟨"yield", some ⟨2025, 3, 14⟩, "t1", 0, 0, "error", some "boom"⟩]
    ∧ dayFailFetch ⟨2025, 3, 12⟩ = Except.error "timeout"
    ∧ (mainLoop (yieldAttempt dayFailFetch "incremental" "scheduled" "t1") "incremental"
        none ⟨2025, 3, 15⟩ "t1" ["yield"] wmDb).1.sync_status
      = [⟨"yield", some ⟨2025, 3, 14⟩, "t1", 0, 0, "success", none⟩] :=
  ⟨by decide, rfl, by decide⟩

end YieldRewind
